import Mathlib

/-!
Shallow embedding of the kfz-backend vehicle marketplace (Express/Node.js)
and proofs about its listing query engine, authentication layer, login
guard, and stores.

Conventions of the embedding:
* JavaScript numbers appearing in the data are integers here (`Int`); where
  `Number(...)`/`parseInt(...)`/`parseFloat(...)` can produce `NaN`, a
  dedicated constructor models the `NaN` outcome and every comparison with
  it is `false`, exactly as in JavaScript.
* `undefined`/absent values are `Option.none`; a query-string parameter that
  is absent or the empty string (both falsy under `if (req.query.x)`) is
  `none`.
* In-memory arrays and SQLite tables are Lean lists; `push`/`INSERT` append
  at the end, lookups scan from the front.
* Time is an integer number of milliseconds (`Date.now()`).
-/

namespace Kfz

/-- A numeric query-string parameter after JavaScript numeric coercion
(`Number(...)` / `parseInt(...)` / `parseFloat(...)`): the parameter may be
absent (or the empty string, which is falsy under `if (req.query.x)`), a
number, or a present but non-numeric string whose coercion is `NaN`. -/
inductive NumParam where
  | absent
  | num (n : Int)
  | malformed
deriving DecidableEq

/-- Vehicle record of the in-memory store in `routes/vehicles.js`
(German field names as in the source). -/
structure Vehicle where
  id : String
  marke : String
  modell : String
  preis : Int
  baujahr : Int
  kilometerstand : Int
  kraftstoff : String
  beschreibung : String
  createdAt : String
  updatedAt : String
deriving DecidableEq

/-- Query parameters accepted by `GET /api/vehicles` in `routes/vehicles.js`. -/
structure VehicleQuery where
  q : Option String := none
  marke : Option String := none
  preis_min : NumParam := .absent
  preis_max : NumParam := .absent
  baujahr_min : NumParam := .absent
  baujahr_max : NumParam := .absent
  km_min : NumParam := .absent
  km_max : NumParam := .absent
  kraftstoff : Option String := none
  sort : Option String := none
  order : Option String := none
  page : NumParam := .absent
  limit : NumParam := .absent
deriving DecidableEq

/-- ASCII lowercasing of one character (code points 65–90 shift to 97–122);
the repository only lowercases ASCII data, on which JavaScript
`toLowerCase` acts exactly like this. -/
def jsCharLower (c : Char) : Char :=
  if 65 ≤ c.toNat ∧ c.toNat ≤ 90 then Char.ofNat (c.toNat + 32) else c

/-- JavaScript `String.prototype.toLowerCase` on the repository's data. -/
def jsToLower (s : String) : String := ⟨s.data.map jsCharLower⟩

/-- Does the character list start with the given pattern? -/
def charsStartWith : List Char → List Char → Bool
  | _, [] => true
  | [], _ :: _ => false
  | c :: cs, p :: ps => c = p && charsStartWith cs ps

/-- Does the character list contain the pattern as a contiguous run? -/
def charsContain : List Char → List Char → Bool
  | _, [] => true
  | [], _ :: _ => false
  | c :: cs, p :: ps => charsStartWith (c :: cs) (p :: ps) || charsContain cs (p :: ps)

/-- JavaScript `String.prototype.includes` (substring test). -/
def jsIncludes (s sub : String) : Bool := charsContain s.data sub.data

/-- Split a character list at every occurrence of a separator, keeping empty
segments, as JavaScript `String.prototype.split` does with a one-character
separator. -/
def jsSplitChars (sep : Char) : List Char → List (List Char)
  | [] => [[]]
  | c :: cs =>
      match jsSplitChars sep cs with
      | [] => [[c]]
      | g :: gs => if c = sep then [] :: g :: gs else (c :: g) :: gs

/-- JavaScript `String.prototype.split` with a one-character separator. -/
def jsSplit (s : String) (sep : Char) : List String :=
  (jsSplitChars sep s.data).map fun l => ⟨l⟩

/-- Text search stage: `if (req.query.q) result = result.filter(v =>
v.marke.toLowerCase().includes(searchTerm) ||
v.modell.toLowerCase().includes(searchTerm))`. -/
def applyQFilter (qs : Option String) (l : List Vehicle) : List Vehicle :=
  match qs with
  | none => l
  | some s =>
      l.filter fun v =>
        jsIncludes (jsToLower v.marke) (jsToLower s) ||
        jsIncludes (jsToLower v.modell) (jsToLower s)

/-- Brand stage: comma-separated exact matches, case-insensitive. -/
def applyMarkeFilter (m : Option String) (l : List Vehicle) : List Vehicle :=
  match m with
  | none => l
  | some s => l.filter fun v => (jsSplit (jsToLower s) ',').contains (jsToLower v.marke)

/-- Lower-bound stage: `result.filter(v => field(v) >= Number(param))`.
A malformed parameter compares the field with `NaN`, which is `false` for
every record. -/
def applyGeFilter (p : NumParam) (field : Vehicle → Int) (l : List Vehicle) : List Vehicle :=
  match p with
  | .absent => l
  | .num n => l.filter fun v => decide (n ≤ field v)
  | .malformed => l.filter fun _ => false

/-- Upper-bound stage: `result.filter(v => field(v) <= Number(param))`. -/
def applyLeFilter (p : NumParam) (field : Vehicle → Int) (l : List Vehicle) : List Vehicle :=
  match p with
  | .absent => l
  | .num n => l.filter fun v => decide (field v ≤ n)
  | .malformed => l.filter fun _ => false

/-- Fuel stage: comma-separated exact matches, case-insensitive. -/
def applyKraftstoffFilter (k : Option String) (l : List Vehicle) : List Vehicle :=
  match k with
  | none => l
  | some s => l.filter fun v => (jsSplit (jsToLower s) ',').contains (jsToLower v.kraftstoff)

/-- A JavaScript value as produced by dynamic field access `a[sortField]`
on a vehicle: a number, a string, or `undefined` for an unknown field. -/
inductive JsValue where
  | num (n : Int)
  | str (s : String)
  | jsUndefined
deriving DecidableEq

/-- Dynamic field access `v[f]` on a vehicle record. -/
def vehicleField (v : Vehicle) (f : String) : JsValue :=
  match f with
  | "id" => .str v.id
  | "marke" => .str v.marke
  | "modell" => .str v.modell
  | "preis" => .num v.preis
  | "baujahr" => .num v.baujahr
  | "kilometerstand" => .num v.kilometerstand
  | "kraftstoff" => .str v.kraftstoff
  | "beschreibung" => .str v.beschreibung
  | "createdAt" => .str v.createdAt
  | "updatedAt" => .str v.updatedAt
  | _ => .jsUndefined

/-- JavaScript `<` on the values a vehicle field can hold.  Comparisons
involving `undefined` are `false` (`NaN`).  A number/string mix cannot arise
between two vehicles because a fixed field name yields the same constructor
for every record, so that dead branch is also `false`. -/
def jsLt : JsValue → JsValue → Bool
  | .num a, .num b => decide (a < b)
  | .str a, .str b => decide (a.data < b.data)
  | _, _ => false

/-- JavaScript `>` (swap of `<` on these operand types). -/
def jsGt (a b : JsValue) : Bool := jsLt b a

/-- The sort comparator of the handler:
`if (a[f] < b[f]) return -1*sortOrder; if (a[f] > b[f]) return 1*sortOrder; return 0`. -/
def vehicleCompare (f : String) (ord : Int) (a b : Vehicle) : Int :=
  if jsLt (vehicleField a f) (vehicleField b f) then -1 * ord
  else if jsGt (vehicleField a f) (vehicleField b f) then 1 * ord
  else 0

/-- `result.sort(comparator)`: `Array.prototype.sort` is stable (ES2019) and
with a consistent comparator `c` its output is the unique stable order in
which `c a b ≤ 0` holds for every adjacent pair; any stable sorting
algorithm with `le a b := c a b ≤ 0` produces it, here insertion sort. -/
def sortVehicles (f : String) (ord : Int) (l : List Vehicle) : List Vehicle :=
  l.insertionSort fun a b => vehicleCompare f ord a b ≤ 0

/-- `Math.max(1, Number(req.query.page) || 1)` (absent, empty, `NaN` and `0`
all collapse to the default 1). -/
def safePage : NumParam → Nat
  | .num n => if n ≤ 0 then 1 else n.toNat
  | _ => 1

/-- `Math.min(100, Math.max(1, Number(req.query.limit) || 20))`. -/
def safeLimit : NumParam → Nat
  | .num n => if n = 0 then 20 else (min 100 (max 1 n)).toNat
  | _ => 20

/-- `Math.ceil(a / b)` for the natural quantities of the pagination block. -/
def ceilDiv (a b : Nat) : Nat := (a + b - 1) / b

/-- Response envelope of the paginated listing. -/
structure PaginatedVehicles where
  data : List Vehicle
  total : Nat
  page : Nat
  limit : Nat
  totalPages : Nat
deriving DecidableEq

/-- The `GET /api/vehicles` handler of `routes/vehicles.js`: text search,
brand filter, three numeric ranges, fuel filter, sort, then pagination. -/
def getVehicles (vehicles : List Vehicle) (q : VehicleQuery) : PaginatedVehicles :=
  let r1 := applyQFilter q.q vehicles
  let r2 := applyMarkeFilter q.marke r1
  let r3 := applyGeFilter q.preis_min (fun v => v.preis) r2
  let r4 := applyLeFilter q.preis_max (fun v => v.preis) r3
  let r5 := applyGeFilter q.baujahr_min (fun v => v.baujahr) r4
  let r6 := applyLeFilter q.baujahr_max (fun v => v.baujahr) r5
  let r7 := applyGeFilter q.km_min (fun v => v.kilometerstand) r6
  let r8 := applyLeFilter q.km_max (fun v => v.kilometerstand) r7
  let r9 := applyKraftstoffFilter q.kraftstoff r8
  let sortField := q.sort.getD "createdAt"
  let sortOrder : Int := if q.order = some "desc" then -1 else 1
  let sorted := sortVehicles sortField sortOrder r9
  let page := safePage q.page
  let limit := safeLimit q.limit
  let startIndex := (page - 1) * limit
  { data := (sorted.drop startIndex).take limit
    total := sorted.length
    page := page
    limit := limit
    totalPages := ceilDiv sorted.length limit }

/-- Predicate form of the text-search stage. -/
def qMatches (qs : Option String) (v : Vehicle) : Bool :=
  match qs with
  | none => true
  | some s =>
      jsIncludes (jsToLower v.marke) (jsToLower s) ||
      jsIncludes (jsToLower v.modell) (jsToLower s)

/-- Predicate form of the brand stage. -/
def markeMatches (m : Option String) (v : Vehicle) : Bool :=
  match m with
  | none => true
  | some s => (jsSplit (jsToLower s) ',').contains (jsToLower v.marke)

/-- Predicate form of a lower-bound stage. -/
def numGeP (p : NumParam) (x : Int) : Bool :=
  match p with
  | .absent => true
  | .num n => decide (n ≤ x)
  | .malformed => false

/-- Predicate form of an upper-bound stage. -/
def numLeP (p : NumParam) (x : Int) : Bool :=
  match p with
  | .absent => true
  | .num n => decide (x ≤ n)
  | .malformed => false

/-- Predicate form of the fuel stage. -/
def kraftstoffMatches (k : Option String) (v : Vehicle) : Bool :=
  match k with
  | none => true
  | some s => (jsSplit (jsToLower s) ',').contains (jsToLower v.kraftstoff)

/-- A record satisfies all active filters of a query. -/
def matchesQuery (q : VehicleQuery) (v : Vehicle) : Bool :=
  qMatches q.q v && markeMatches q.marke v &&
  numGeP q.preis_min v.preis && numLeP q.preis_max v.preis &&
  numGeP q.baujahr_min v.baujahr && numLeP q.baujahr_max v.baujahr &&
  numGeP q.km_min v.kilometerstand && numLeP q.km_max v.kilometerstand &&
  kraftstoffMatches q.kraftstoff v

theorem applyQFilter_eq (qs : Option String) (l : List Vehicle) :
    applyQFilter qs l = l.filter (fun v => qMatches qs v) := by
  cases qs <;> simp [applyQFilter, qMatches]

theorem applyMarkeFilter_eq (m : Option String) (l : List Vehicle) :
    applyMarkeFilter m l = l.filter (fun v => markeMatches m v) := by
  cases m <;> simp [applyMarkeFilter, markeMatches]

theorem applyGeFilter_eq (p : NumParam) (field : Vehicle → Int) (l : List Vehicle) :
    applyGeFilter p field l = l.filter (fun v => numGeP p (field v)) := by
  cases p <;> simp [applyGeFilter, numGeP]

theorem applyLeFilter_eq (p : NumParam) (field : Vehicle → Int) (l : List Vehicle) :
    applyLeFilter p field l = l.filter (fun v => numLeP p (field v)) := by
  cases p <;> simp [applyLeFilter, numLeP]

theorem applyKraftstoffFilter_eq (k : Option String) (l : List Vehicle) :
    applyKraftstoffFilter k l = l.filter (fun v => kraftstoffMatches k v) := by
  cases k <;> simp [applyKraftstoffFilter, kraftstoffMatches]

/-- The nine sequential filter stages of the handler equal one filter by the
conjunction of all active predicates. -/
theorem filters_eq_matchesQuery (q : VehicleQuery) (vs : List Vehicle) :
    applyKraftstoffFilter q.kraftstoff
      (applyLeFilter q.km_max (fun v => v.kilometerstand)
        (applyGeFilter q.km_min (fun v => v.kilometerstand)
          (applyLeFilter q.baujahr_max (fun v => v.baujahr)
            (applyGeFilter q.baujahr_min (fun v => v.baujahr)
              (applyLeFilter q.preis_max (fun v => v.preis)
                (applyGeFilter q.preis_min (fun v => v.preis)
                  (applyMarkeFilter q.marke
                    (applyQFilter q.q vs)))))))) =
    vs.filter (matchesQuery q) := by
  simp only [applyQFilter_eq, applyMarkeFilter_eq, applyGeFilter_eq, applyLeFilter_eq,
    applyKraftstoffFilter_eq, List.filter_filter]
  apply List.filter_congr
  intro v _
  simp only [matchesQuery]
  ac_rfl

theorem length_sortVehicles (f : String) (o : Int) (l : List Vehicle) :
    (sortVehicles f o l).length = l.length := by
  simp [sortVehicles, List.length_insertionSort]

theorem safeLimit_pos (p : NumParam) : 1 ≤ safeLimit p := by
  cases p with
  | num n =>
      simp only [safeLimit]
      split
      · omega
      · have h1 : (1 : Int) ≤ min 100 (max 1 n) := by omega
        omega
  | absent => simp [safeLimit]
  | malformed => simp [safeLimit]

theorem le_ceilDiv_mul (a b : Nat) (hb : 1 ≤ b) : a ≤ ceilDiv a b * b := by
  unfold ceilDiv
  rw [Nat.mul_comm]
  have h1 := Nat.div_add_mod (a + b - 1) b
  have h2 : (a + b - 1) % b < b := Nat.mod_lt _ (by omega)
  omega

/-- Closed form of the listing handler: filtering collapses to one predicate,
`total` is the pre-pagination filtered count, `totalPages` its ceiling
quotient, and `data` the sorted slice. -/
theorem getVehicles_eq (vehicles : List Vehicle) (q : VehicleQuery) :
    getVehicles vehicles q =
      { data := ((sortVehicles (q.sort.getD "createdAt")
            (if q.order = some "desc" then -1 else 1)
            (vehicles.filter (matchesQuery q))).drop
            ((safePage q.page - 1) * safeLimit q.limit)).take (safeLimit q.limit)
        total := (vehicles.filter (matchesQuery q)).length
        page := safePage q.page
        limit := safeLimit q.limit
        totalPages := ceilDiv (vehicles.filter (matchesQuery q)).length (safeLimit q.limit) } := by
  simp only [getVehicles]
  rw [filters_eq_matchesQuery]
  simp [length_sortVehicles]

/-- C1.  For every vehicle collection and every query parameter set, the
paginated listing returns `total` equal to the number of records satisfying
all active filters (counted before pagination), `totalPages = ceil(total /
limit)`, `data` equal to the filtered, sorted sequence sliced at indices
`[(page-1)*limit, (page-1)*limit + limit)`, and a page beyond `totalPages`
yields an empty item sequence (with the same `total` and `totalPages`, which
do not depend on the page). -/
theorem getVehicles_pagination_correct (vehicles : List Vehicle) (q : VehicleQuery) :
    (getVehicles vehicles q).total = (vehicles.filter (matchesQuery q)).length ∧
    (getVehicles vehicles q).totalPages =
      ceilDiv (getVehicles vehicles q).total (getVehicles vehicles q).limit ∧
    (getVehicles vehicles q).data =
      ((sortVehicles (q.sort.getD "createdAt") (if q.order = some "desc" then -1 else 1)
          (vehicles.filter (matchesQuery q))).drop
        (((getVehicles vehicles q).page - 1) * (getVehicles vehicles q).limit)).take
        (getVehicles vehicles q).limit ∧
    ((getVehicles vehicles q).totalPages < (getVehicles vehicles q).page →
      (getVehicles vehicles q).data = []) := by
  rw [getVehicles_eq]
  refine ⟨rfl, rfl, rfl, ?_⟩
  intro hbeyond
  set T := (vehicles.filter (matchesQuery q)).length with hT
  set L := safeLimit q.limit with hL
  have hLpos : 1 ≤ L := safeLimit_pos q.limit
  have hstart : T ≤ (safePage q.page - 1) * L := by
    have h1 : ceilDiv T L + 1 ≤ safePage q.page := hbeyond
    have h2 : T ≤ ceilDiv T L * L := le_ceilDiv_mul T L hLpos
    have h3 : ceilDiv T L * L ≤ (safePage q.page - 1) * L :=
      Nat.mul_le_mul_right L (by omega)
    omega
  have hdrop : (sortVehicles (q.sort.getD "createdAt")
      (if q.order = some "desc" then -1 else 1)
      (vehicles.filter (matchesQuery q))).drop ((safePage q.page - 1) * L) = [] := by
    apply List.drop_eq_nil_of_le
    rw [length_sortVehicles]
    exact hstart
  simp [hdrop]

/-- Sample record in the shape of the seeded in-memory data. -/
def sampleV1 : Vehicle :=
  { id := "1", marke := "Mercedes-Benz", modell := "C-Klasse AMG", preis := 68000
    baujahr := 2022, kilometerstand := 15000, kraftstoff := "benzin"
    beschreibung := "Sportlicher AMG", createdAt := "2025-01-01", updatedAt := "2025-01-01" }

/-- Sample record in the shape of the seeded in-memory data. -/
def sampleV2 : Vehicle :=
  { id := "2", marke := "BMW", modell := "M4 Competition", preis := 89900
    baujahr := 2022, kilometerstand := 15000, kraftstoff := "benzin"
    beschreibung := "BMW M4", createdAt := "2025-01-02", updatedAt := "2025-01-02" }

/-- Witness for C1 at a concrete input: two vehicles, `limit = 1`, `page = 5`
is beyond `totalPages = 2`, and the item list is empty as the theorem states. -/
theorem getVehicles_pagination_correct_witness :
    (getVehicles [sampleV1, sampleV2] { page := .num 5, limit := .num 1 }).totalPages <
      (getVehicles [sampleV1, sampleV2] { page := .num 5, limit := .num 1 }).page ∧
    (getVehicles [sampleV1, sampleV2] { page := .num 5, limit := .num 1 }).data = [] :=
  ⟨by decide, (getVehicles_pagination_correct [sampleV1, sampleV2]
    { page := .num 5, limit := .num 1 }).2.2.2 (by decide)⟩

/-- C3 counterexample.  A malformed (non-numeric) `preis_min` is not treated
as an absent filter: on a one-vehicle collection it empties the result, while
the same query without the parameter returns the vehicle. -/
theorem getVehicles_malformed_not_ignored :
    getVehicles [sampleV1] { preis_min := NumParam.malformed } ≠ getVehicles [sampleV1] {} ∧
    (getVehicles [sampleV1] { preis_min := NumParam.malformed }).data = [] ∧
    (getVehicles [sampleV1] {}).data = [sampleV1] := by
  refine ⟨?_, by decide, by decide⟩
  decide

/-- C3 amended.  A malformed numeric bound (any of the six range parameters)
is still applied: the `NaN` comparison rejects every record, so the query
returns an empty item list with `total = 0` on every collection. -/
theorem getVehicles_malformed_empties_result (vehicles : List Vehicle) (q : VehicleQuery)
    (h : q.preis_min = .malformed ∨ q.preis_max = .malformed ∨
      q.baujahr_min = .malformed ∨ q.baujahr_max = .malformed ∨
      q.km_min = .malformed ∨ q.km_max = .malformed) :
    (getVehicles vehicles q).total = 0 ∧ (getVehicles vehicles q).data = [] := by
  have hfalse : ∀ v, matchesQuery q v = false := by
    intro v
    rcases h with h | h | h | h | h | h <;> simp [matchesQuery, h, numGeP, numLeP]
  have hfil : vehicles.filter (matchesQuery q) = [] := by
    simp [List.filter_eq_nil_iff, hfalse]
  rw [getVehicles_eq]
  simp [hfil, sortVehicles]

/-- Witness for the amended C3 at a concrete input. -/
theorem getVehicles_malformed_empties_result_witness :
    (getVehicles [sampleV1, sampleV2] { km_max := NumParam.malformed }).total = 0 ∧
    (getVehicles [sampleV1, sampleV2] { km_max := NumParam.malformed }).data = [] :=
  getVehicles_malformed_empties_result [sampleV1, sampleV2] _
    (by decide)

/-- C5 counterexample.  In the `routes/vehicles.js` handler, an `order` value
other than `asc`/`desc` sorts ascending (the claim says descending), and a
sort field outside the allow-list is used as given — the unknown field makes
every comparison equal, leaving the filtered order unchanged instead of
falling back to `createdAt` (here `order=asc` with an unknown field leaves
the newer vehicle first, not the `createdAt`-ascending order). -/
theorem getVehicles_sort_fallback_countereg :
    (getVehicles [sampleV2, sampleV1]
      { sort := some "preis", order := some "xx" }).data = [sampleV1, sampleV2] ∧
    sampleV1.preis < sampleV2.preis ∧
    (getVehicles [sampleV2, sampleV1]
      { sort := some "bogus", order := some "asc" }).data = [sampleV2, sampleV1] ∧
    sampleV1.createdAt.data < sampleV2.createdAt.data := by
  refine ⟨by decide, by decide, by decide, by decide⟩

/-- Claims carried by a signed session token:
`jwt.sign({ userId, email, role }, ...)`. -/
structure TokenClaims where
  userId : String
  email : String
  role : String
deriving DecidableEq

/-- Result of `jwt.verify`: decoded claims, or one of the two failure modes
the library throws (invalid signature, expired token); the source catches
both with the same handler. -/
inductive VerifyResult where
  | ok (claims : TokenClaims)
  | badSignature
  | expired
deriving DecidableEq

/-- The token verifier (`jwt.verify` with the server-side secret), abstracted
as a function of the raw token string. -/
structure TokenEnv where
  verify : String → VerifyResult

/-- Outcome of the `authenticateToken` middleware. -/
inductive AuthResult where
  | missingToken
  | invalidToken
  | authorized (claims : TokenClaims)
deriving DecidableEq

/-- HTTP status written on an authentication failure
(401 'Kein Token vorhanden', 403 'Ungültiger Token'); `none` means the
middleware called `next()`. -/
def authFailureStatus : AuthResult → Option Nat
  | .missingToken => some 401
  | .invalidToken => some 403
  | .authorized _ => none

/-- `const token = authHeader && authHeader.split(' ')[1]`. -/
def extractBearer (authHeader : Option String) : Option String :=
  match authHeader with
  | none => none
  | some h => (jsSplit h ' ').get? 1

/-- The `authenticateToken` middleware of `routes/auth.js`: a falsy token
(absent header, no second space-separated segment, or an empty segment)
yields the 401 missing-token response; a present token that fails
verification yields the 403 invalid-token response. -/
def authenticateToken (env : TokenEnv) (authHeader : Option String) : AuthResult :=
  match extractBearer authHeader with
  | none => .missingToken
  | some t =>
      if t = "" then .missingToken
      else
        match env.verify t with
        | .ok c => .authorized c
        | _ => .invalidToken

/-- C6.  A request with no bearer token fails with the missing-token kind
mapped to 401; a request whose token has an invalid signature or is expired
fails with the distinct invalid-token kind mapped to 403; the two kinds are
never conflated. -/
theorem authenticateToken_distinguishes (env : TokenEnv) (h : Option String) :
    (extractBearer h = none ∨ extractBearer h = some "" →
      authenticateToken env h = .missingToken ∧
      authFailureStatus (authenticateToken env h) = some 401) ∧
    (∀ t, extractBearer h = some t → t ≠ "" →
      env.verify t = .badSignature ∨ env.verify t = .expired →
      authenticateToken env h = .invalidToken ∧
      authFailureStatus (authenticateToken env h) = some 403) ∧
    (AuthResult.missingToken ≠ AuthResult.invalidToken ∧ (401 : Nat) ≠ 403) := by
  refine ⟨?_, ?_, by simp⟩
  · rintro (hx | hx) <;> simp [authenticateToken, hx, authFailureStatus]
  · rintro t hx hne (hv | hv) <;>
      simp [authenticateToken, hx, hne, hv, authFailureStatus]

/-- Sample claims for concrete evaluations. -/
def sampleClaims : TokenClaims :=
  { userId := "1", email := "admin@test.com", role := "admin" }

/-- Sample verifier: exactly one accepted token string. -/
def sampleEnv : TokenEnv :=
  { verify := fun t => if t = "tok123" then .ok sampleClaims else .badSignature }

/-- Witness for C6 at concrete inputs. -/
theorem authenticateToken_distinguishes_witness :
    authenticateToken sampleEnv (some "Bearer bad") = .invalidToken ∧
    authenticateToken sampleEnv none = .missingToken :=
  ⟨((authenticateToken_distinguishes sampleEnv (some "Bearer bad")).2.1 "bad"
      (by decide) (by decide) (Or.inl (by decide))).1,
   ((authenticateToken_distinguishes sampleEnv none).1 (Or.inl (by decide))).1⟩

theorem jsSplitChars_ne_nil (sep : Char) (l : List Char) : jsSplitChars sep l ≠ [] := by
  cases l with
  | nil => simp [jsSplitChars]
  | cons c cs =>
      rcases hm : jsSplitChars sep cs with _ | ⟨g, gs⟩
      · simp [jsSplitChars, hm]
      · simp only [jsSplitChars, hm]
        split <;> simp

theorem jsSplitChars_no_sep (sep : Char) (l : List Char) (h : ∀ c ∈ l, c ≠ sep) :
    jsSplitChars sep l = [l] := by
  induction l with
  | nil => rfl
  | cons c cs ih =>
      have hc : c ≠ sep := h c (by simp)
      have := ih (fun d hd => h d (by simp [hd]))
      simp [jsSplitChars, this, hc]

theorem jsSplitChars_append (sep : Char) (s t : List Char) (hs : ∀ c ∈ s, c ≠ sep) :
    jsSplitChars sep (s ++ sep :: t) = s :: jsSplitChars sep t := by
  induction s with
  | nil =>
      rcases h' : jsSplitChars sep t with _ | ⟨g, gs⟩
      · exact absurd h' (jsSplitChars_ne_nil sep t)
      · simp [jsSplitChars, h']
  | cons c cs ih =>
      have hc : c ≠ sep := hs c (by simp)
      have hrec := ih (fun d hd => hs d (by simp [hd]))
      show jsSplitChars sep (c :: (cs ++ sep :: t)) = (c :: cs) :: jsSplitChars sep t
      simp only [jsSplitChars]
      rw [hrec]
      simp [hc]

/-- C10.  An `Authorization` header with no second space-separated segment
(a bare token without scheme, or the word `Bearer` alone) takes the 401
missing-token path, never the invalid-token path; the scheme word itself is
ignored, so any first word followed by a token accepted by the verifier
authorizes the request. -/
theorem authenticateToken_header_parsing (env : TokenEnv) :
    authenticateToken env none = .missingToken ∧
    (∀ h : String, (∀ c ∈ h.data, c ≠ ' ') →
      authenticateToken env (some h) = .missingToken) ∧
    (∀ scheme tok : String, (∀ c ∈ scheme.data, c ≠ ' ') →
      (∀ c ∈ tok.data, c ≠ ' ') → tok ≠ "" → ∀ cl, env.verify tok = .ok cl →
      authenticateToken env (some (scheme ++ " " ++ tok)) = .authorized cl) := by
  refine ⟨rfl, ?_, ?_⟩
  · intro h hns
    have hsplit : jsSplit h ' ' = [h] := by
      simp [jsSplit, jsSplitChars_no_sep ' ' h.data hns]
    simp [authenticateToken, extractBearer, hsplit]
  · intro scheme tok hs ht hne cl hcl
    have hdata : (scheme ++ " " ++ tok).data = scheme.data ++ ' ' :: tok.data := by
      simp [String.data_append]
    have hsplit : jsSplit (scheme ++ " " ++ tok) ' ' = [scheme, tok] := by
      simp [jsSplit, hdata, jsSplitChars_append ' ' scheme.data tok.data hs,
        jsSplitChars_no_sep ' ' tok.data ht]
    simp [authenticateToken, extractBearer, hsplit, hne, hcl]

/-- Witness for C10 at concrete inputs: a non-`Bearer` scheme is accepted
with a valid token, and `Bearer` alone is a missing token. -/
theorem authenticateToken_header_parsing_witness :
    authenticateToken sampleEnv (some ("Basic" ++ " " ++ "tok123")) = .authorized sampleClaims ∧
    authenticateToken sampleEnv (some "Bearer") = .missingToken :=
  ⟨(authenticateToken_header_parsing sampleEnv).2.2 "Basic" "tok123"
      (by decide) (by decide) (by decide) sampleClaims (by decide),
   (authenticateToken_header_parsing sampleEnv).2.1 "Bearer" (by decide)⟩

/-- User record as stored by the credential store. -/
structure User where
  id : String
  email : String
  password : String
  name : String
  role : String
  createdAt : String
deriving DecidableEq

/-- `users.find(u => u.email === email.toLowerCase())` — the in-memory
variant of `findUserByEmail`. -/
def findUserByEmail (users : List User) (email : String) : Option User :=
  users.find? fun u => u.email == jsToLower email

/-- `SELECT * FROM users WHERE LOWER(email) = LOWER(?)` called with the
lowercased query email — the SQLite variant of `findUserByEmail` in
`data/users.js`. -/
def findUserByEmailSql (users : List User) (email : String) : Option User :=
  users.find? fun u => jsToLower u.email == jsToLower (jsToLower email)

/-- One email's failed-login record in the `loginAttempts` map. -/
structure AttemptRecord where
  count : Nat
  lastAttempt : Int
deriving DecidableEq

/-- The process-wide `loginAttempts` JavaScript `Map`, with unique keys. -/
abbrev AttemptMap := List (String × AttemptRecord)

/-- `Map.prototype.get`. -/
def mapGet (m : AttemptMap) (k : String) : Option AttemptRecord :=
  (m.find? fun e => e.1 == k).map fun e => e.2

/-- `Map.prototype.set` (replaces the entry for an existing key). -/
def mapSet (m : AttemptMap) (k : String) (v : AttemptRecord) : AttemptMap :=
  match m with
  | [] => [(k, v)]
  | e :: rest => if e.1 == k then (k, v) :: rest else e :: mapSet rest k v

/-- `Map.prototype.delete`.  A JavaScript `Map` holds at most one entry per
key, so deleting every entry with the key coincides with it. -/
def mapDelete (m : AttemptMap) (k : String) : AttemptMap :=
  m.filter fun e => !(e.1 == k)

def MAX_LOGIN_ATTEMPTS : Nat := 5

/-- One minute, in milliseconds. -/
def LOCKOUT_TIME : Int := 60000

/-- `Math.ceil(x / 1000)` for the nonnegative remaining lockout time. -/
def ceilSeconds (x : Int) : Nat := (x.toNat + 999) / 1000

/-- Outcome of the `checkRateLimit` helper. -/
inductive RateLimitResult where
  | allowed
  | blocked (waitTime : Nat)
deriving DecidableEq

/-- `checkRateLimit` from `routes/auth.js`: blocked when the stored count
reached the threshold and the last attempt is within the lockout window;
an expired record is deleted. -/
def checkRateLimit (m : AttemptMap) (email : String) (now : Int) :
    RateLimitResult × AttemptMap :=
  match mapGet m email with
  | none => (.allowed, m)
  | some attempts =>
      if attempts.count ≥ MAX_LOGIN_ATTEMPTS ∧ now - attempts.lastAttempt < LOCKOUT_TIME then
        (.blocked (ceilSeconds (LOCKOUT_TIME - (now - attempts.lastAttempt))), m)
      else if now - attempts.lastAttempt ≥ LOCKOUT_TIME then
        (.allowed, mapDelete m email)
      else (.allowed, m)

/-- `recordLoginAttempt` from `routes/auth.js`. -/
def recordLoginAttempt (m : AttemptMap) (email : String) (success : Bool) (now : Int) :
    AttemptMap :=
  if success then mapDelete m email
  else
    let attempts := (mapGet m email).getD { count := 0, lastAttempt := 0 }
    mapSet m email { count := attempts.count + 1, lastAttempt := now }

/-- Outcome of the `POST /api/auth/login` handler. -/
inductive LoginOutcome where
  | validationError
  | rateLimited (waitTime : Nat)
  | authFailed
  | success (claims : TokenClaims)
deriving DecidableEq

/-- The `POST /api/auth/login` handler: field validation, then the rate
limit (before any credential lookup), then user lookup and the bcrypt
comparison (abstracted as `bcryptOk`), recording the outcome in the guard.
Absent body fields and empty strings are both falsy and modeled as `""`. -/
def login (users : List User) (bcryptOk : String → String → Bool) (m : AttemptMap)
    (email pw : String) (now : Int) : LoginOutcome × AttemptMap :=
  if email = "" ∨ pw = "" then (.validationError, m)
  else
    match checkRateLimit m (jsToLower email) now with
    | (.blocked w, m') => (.rateLimited w, m')
    | (.allowed, m') =>
        match findUserByEmailSql users email with
        | none => (.authFailed, recordLoginAttempt m' (jsToLower email) false now)
        | some user =>
            if bcryptOk pw user.password then
              (.success { userId := user.id, email := user.email, role := user.role },
                recordLoginAttempt m' (jsToLower email) true now)
            else
              (.authFailed, recordLoginAttempt m' (jsToLower email) false now)

theorem mapGet_set_self (m : AttemptMap) (k : String) (v : AttemptRecord) :
    mapGet (mapSet m k v) k = some v := by
  induction m with
  | nil => simp [mapSet, mapGet]
  | cons e rest ih =>
      by_cases hk : e.1 = k
      · simp [mapSet, mapGet, hk]
      · simp only [mapSet, mapGet] at ih ⊢
        simp [hk, ih]

theorem mapGet_delete_self (m : AttemptMap) (k : String) :
    mapGet (mapDelete m k) k = none := by
  simp only [mapGet, mapDelete, Option.map_eq_none', List.find?_eq_none,
    List.mem_filter]
  intro x hx
  simpa using hx.2

theorem login_not_validation (users : List User) (bc : String → String → Bool)
    (st st' : AttemptMap) (email pw : String) (now : Int) (r : LoginOutcome)
    (h : login users bc st email pw now = (r, st')) (hr : r ≠ .validationError) :
    ¬(email = "" ∨ pw = "") := by
  intro hc
  simp only [login, if_pos hc, Prod.mk.injEq] at h
  exact hr h.1.symm

theorem checkRateLimit_allowed_of_count_lt (st : AttemptMap) (key : String) (now : Int)
    (c : Nat) (tl : Int) (hst : mapGet st key = some ⟨c, tl⟩)
    (hc : c < MAX_LOGIN_ATTEMPTS) (ht : now - tl < LOCKOUT_TIME) :
    checkRateLimit st key now = (.allowed, st) := by
  simp only [checkRateLimit, hst]
  rw [if_neg, if_neg]
  · simp only [ge_iff_le, not_le]
    exact ht
  · simp only [ge_iff_le, not_and, not_lt]
    intro hge
    exact absurd hge (by omega)

theorem login_authFailed_state (users : List User) (bc : String → String → Bool)
    (st st' : AttemptMap) (email pw : String) (now : Int) (c : Nat) (tl : Int)
    (hst : mapGet st (jsToLower email) = some ⟨c, tl⟩)
    (hc : c < MAX_LOGIN_ATTEMPTS) (ht : now - tl < LOCKOUT_TIME)
    (he : login users bc st email pw now = (.authFailed, st')) :
    st' = mapSet st (jsToLower email) ⟨c + 1, now⟩ := by
  have hep := login_not_validation users bc st st' email pw now _ he (by simp)
  simp only [login, if_neg hep,
    checkRateLimit_allowed_of_count_lt st (jsToLower email) now c tl hst hc ht] at he
  rcases hu : findUserByEmailSql users email with _ | u
  · simp [hu, recordLoginAttempt, hst] at he
    exact he.symm
  · simp only [hu] at he
    by_cases hb : bc pw u.password
    · simp [hb] at he
    · simp only [Bool.not_eq_true] at hb
      simp [hb, recordLoginAttempt, hst] at he
      exact he.symm

theorem login_authFailed_first (users : List User) (bc : String → String → Bool)
    (st st' : AttemptMap) (email pw : String) (now : Int)
    (hst : mapGet st (jsToLower email) = none)
    (he : login users bc st email pw now = (.authFailed, st')) :
    st' = mapSet st (jsToLower email) ⟨1, now⟩ := by
  have hep := login_not_validation users bc st st' email pw now _ he (by simp)
  have hcheck : checkRateLimit st (jsToLower email) now = (.allowed, st) := by
    simp only [checkRateLimit, hst]
  simp only [login, if_neg hep, hcheck] at he
  rcases hu : findUserByEmailSql users email with _ | u
  · simp [hu, recordLoginAttempt, hst] at he
    exact he.symm
  · simp only [hu] at he
    by_cases hb : bc pw u.password
    · simp [hb] at he
    · simp only [Bool.not_eq_true] at hb
      simp [hb, recordLoginAttempt, hst] at he
      exact he.symm

theorem login_blocked (users : List User) (bc : String → String → Bool)
    (st : AttemptMap) (email pw : String) (now : Int) (c : Nat) (tl : Int)
    (he : email ≠ "") (hp : pw ≠ "")
    (hst : mapGet st (jsToLower email) = some ⟨c, tl⟩)
    (hc : MAX_LOGIN_ATTEMPTS ≤ c) (ht : now - tl < LOCKOUT_TIME) :
    login users bc st email pw now =
      (.rateLimited (ceilSeconds (LOCKOUT_TIME - (now - tl))), st) := by
  have hep : ¬(email = "" ∨ pw = "") := by simp [he, hp]
  have hcheck : checkRateLimit st (jsToLower email) now =
      (.blocked (ceilSeconds (LOCKOUT_TIME - (now - tl))), st) := by
    simp only [checkRateLimit, hst]
    rw [if_pos ⟨hc, ht⟩]
  simp only [login, if_neg hep, hcheck]

theorem login_success_resets (users : List User) (bc : String → String → Bool)
    (st : AttemptMap) (email pw : String) (now : Int) (cl : TokenClaims)
    (h : (login users bc st email pw now).1 = .success cl) :
    mapGet (login users bc st email pw now).2 (jsToLower email) = none := by
  by_cases hep : email = "" ∨ pw = ""
  · simp [login, hep] at h
  · simp only [login, if_neg hep] at h ⊢
    rcases hrl : checkRateLimit st (jsToLower email) now with ⟨r, m'⟩
    cases r with
    | blocked w => simp [hrl] at h
    | allowed =>
        simp only [hrl] at h ⊢
        rcases hu : findUserByEmailSql users email with _ | u
        · simp [hu] at h
        · simp only [hu] at h ⊢
          by_cases hb : bc pw u.password
          · simp [hb, recordLoginAttempt, mapGet_delete_self]
          · simp only [Bool.not_eq_true] at hb
            simp [hb] at h

/-- C4.  Starting from a clear guard state for an email, five consecutive
failed login attempts whose gaps stay inside the 60 s lockout window lock
the email: a sixth attempt within 60 s of the last failure is rejected as
rate-limited with a positive remaining wait, for any supplied password and
independently of the credential store (the guard state is returned
unchanged and the outcome does not mention the store); a successful login
deletes the email's failure record. -/
theorem loginGuard_lockout (users : List User) (bc : String → String → Bool)
    (st0 st1 st2 st3 st4 st5 : AttemptMap)
    (email pw1 pw2 pw3 pw4 pw5 pw6 : String) (t1 t2 t3 t4 t5 t6 : Int)
    (h0 : mapGet st0 (jsToLower email) = none)
    (e1 : login users bc st0 email pw1 t1 = (.authFailed, st1))
    (e2 : login users bc st1 email pw2 t2 = (.authFailed, st2))
    (e3 : login users bc st2 email pw3 t3 = (.authFailed, st3))
    (e4 : login users bc st3 email pw4 t4 = (.authFailed, st4))
    (e5 : login users bc st4 email pw5 t5 = (.authFailed, st5))
    (hp6 : pw6 ≠ "")
    (g12 : t2 - t1 < LOCKOUT_TIME) (g23 : t3 - t2 < LOCKOUT_TIME)
    (g34 : t4 - t3 < LOCKOUT_TIME) (g45 : t5 - t4 < LOCKOUT_TIME)
    (g56 : t6 - t5 < LOCKOUT_TIME) :
    login users bc st5 email pw6 t6 =
      (.rateLimited (ceilSeconds (LOCKOUT_TIME - (t6 - t5))), st5) ∧
    0 < ceilSeconds (LOCKOUT_TIME - (t6 - t5)) ∧
    (∀ (st : AttemptMap) (pw : String) (t : Int) (cl : TokenClaims),
      (login users bc st email pw t).1 = .success cl →
      mapGet (login users bc st email pw t).2 (jsToLower email) = none) := by
  have hemail : ¬(email = "" ∨ pw1 = "") :=
    login_not_validation users bc st0 st1 email pw1 t1 _ e1 (by simp)
  have hMAX : MAX_LOGIN_ATTEMPTS = 5 := rfl
  have hs1 : st1 = mapSet st0 (jsToLower email) ⟨1, t1⟩ :=
    login_authFailed_first users bc st0 st1 email pw1 t1 h0 e1
  have m1 : mapGet st1 (jsToLower email) = some ⟨1, t1⟩ := by
    rw [hs1]; exact mapGet_set_self st0 (jsToLower email) ⟨1, t1⟩
  have hs2 : st2 = mapSet st1 (jsToLower email) ⟨2, t2⟩ :=
    login_authFailed_state users bc st1 st2 email pw2 t2 1 t1 m1 (by omega) g12 e2
  have m2 : mapGet st2 (jsToLower email) = some ⟨2, t2⟩ := by
    rw [hs2]; exact mapGet_set_self st1 (jsToLower email) ⟨2, t2⟩
  have hs3 : st3 = mapSet st2 (jsToLower email) ⟨3, t3⟩ :=
    login_authFailed_state users bc st2 st3 email pw3 t3 2 t2 m2 (by omega) g23 e3
  have m3 : mapGet st3 (jsToLower email) = some ⟨3, t3⟩ := by
    rw [hs3]; exact mapGet_set_self st2 (jsToLower email) ⟨3, t3⟩
  have hs4 : st4 = mapSet st3 (jsToLower email) ⟨4, t4⟩ :=
    login_authFailed_state users bc st3 st4 email pw4 t4 3 t3 m3 (by omega) g34 e4
  have m4 : mapGet st4 (jsToLower email) = some ⟨4, t4⟩ := by
    rw [hs4]; exact mapGet_set_self st3 (jsToLower email) ⟨4, t4⟩
  have hs5 : st5 = mapSet st4 (jsToLower email) ⟨5, t5⟩ :=
    login_authFailed_state users bc st4 st5 email pw5 t5 4 t4 m4 (by omega) g45 e5
  have m5 : mapGet st5 (jsToLower email) = some ⟨5, t5⟩ := by
    rw [hs5]; exact mapGet_set_self st4 (jsToLower email) ⟨5, t5⟩
  refine ⟨?_, ?_, ?_⟩
  · exact login_blocked users bc st5 email pw6 t6 5 t5
      (by intro he0; exact hemail (Or.inl he0)) hp6 m5 (by omega) g56
  · have hpos : (0 : Int) < LOCKOUT_TIME - (t6 - t5) := by
      simp only [LOCKOUT_TIME] at g56 ⊢
      omega
    simp only [ceilSeconds]
    omega
  · intro st pw t cl h
    exact login_success_resets users bc st email pw t cl h

/-- Witness for C4: a concrete run of five failed attempts at times 0..4
from the empty guard state, then a sixth attempt at time 5 with a different
password; the computed wait is 60 seconds. -/
theorem loginGuard_lockout_witness :
    login [] (fun _ _ => false) [("a@b.c", ⟨5, 4⟩)] "a@b.c" "whateverPw" 5 =
      (.rateLimited (ceilSeconds (LOCKOUT_TIME - (5 - 4))), [("a@b.c", ⟨5, 4⟩)]) ∧
    ceilSeconds (LOCKOUT_TIME - (5 - 4)) = 60 :=
  ⟨(loginGuard_lockout [] (fun _ _ => false) [] [("a@b.c", ⟨1, 0⟩)] [("a@b.c", ⟨2, 1⟩)]
      [("a@b.c", ⟨3, 2⟩)] [("a@b.c", ⟨4, 3⟩)] [("a@b.c", ⟨5, 4⟩)]
      "a@b.c" "wrongPw1" "wrongPw1" "wrongPw1" "wrongPw1" "wrongPw1" "whateverPw"
      0 1 2 3 4 5 (by decide) (by decide) (by decide) (by decide) (by decide)
      (by decide) (by decide) (by decide) (by decide) (by decide) (by decide)
      (by decide)).1,
   by decide⟩

theorem jsCharLower_idem (c : Char) : jsCharLower (jsCharLower c) = jsCharLower c := by
  unfold jsCharLower
  by_cases h : 65 ≤ c.toNat ∧ c.toNat ≤ 90
  · rw [if_pos h]
    have ht : (Char.ofNat (c.toNat + 32)).toNat = c.toNat + 32 := by
      unfold Char.ofNat
      rw [dif_pos (by omega : (c.toNat + 32).isValidChar)]
      rfl
    rw [if_neg]
    intro hcon
    rw [ht] at hcon
    omega
  · rw [if_neg h, if_neg h]

theorem jsToLower_idem (s : String) : jsToLower (jsToLower s) = jsToLower s := by
  simp [jsToLower, List.map_map, Function.comp_def, jsCharLower_idem]

/-- `isValidEmail` from `routes/auth.js`: the regular expression
`^[^\s@]+@[^\s@]+\.[^\s@]+$` matches exactly the whitespace-free strings
with a single `@`, a nonempty local part, and a `.` in the domain part that
is neither its first nor its last character. -/
def isValidEmail (s : String) : Bool :=
  match jsSplitChars '@' s.data with
  | [lo, domain] =>
      !lo.isEmpty && lo.all (fun c => !c.isWhitespace) &&
      domain.all (fun c => !c.isWhitespace) &&
      ((domain.drop 1).dropLast.contains '.')
  | _ => false

/-- `isValidPassword` from `routes/auth.js`: a truthy password of at least
8 characters. -/
def isValidPassword (p : String) : Bool := decide (8 ≤ p.length)

/-- Outcome of the `POST /api/auth/register` handler. -/
inductive RegisterOutcome where
  | validationError
  | conflict
  | created (u : User) (claims : TokenClaims)
deriving DecidableEq

/-- The `POST /api/auth/register` handler: field presence, email format and
password strength checks, the case-insensitive duplicate check, then the
insertion of a user with the lowercased email, the bcrypt hash (abstracted
as `hash`), and role `user`, plus an issued token.  An absent `name` is the
empty string, absent `email`/`password` are the falsy `""`. -/
def register (users : List User) (hash : String → String)
    (email pw nm id now : String) : RegisterOutcome × List User :=
  if email = "" ∨ pw = "" then (.validationError, users)
  else if ¬ isValidEmail email then (.validationError, users)
  else if ¬ isValidPassword pw then (.validationError, users)
  else
    match findUserByEmailSql users email with
    | some _ => (.conflict, users)
    | none =>
        let user : User :=
          { id := id, email := jsToLower email, password := hash pw,
            name := nm, role := "user", createdAt := now }
        (.created user { userId := id, email := jsToLower email, role := "user" },
          users ++ [user])

theorem register_created_shape (users : List User) (hash : String → String)
    (email pw nm id now : String) (u : User) (cl : TokenClaims) (users' : List User)
    (h : register users hash email pw nm id now = (.created u cl, users')) :
    u.email = jsToLower email ∧ users' = users ++ [u] := by
  by_cases h1 : email = "" ∨ pw = ""
  · simp [register, h1] at h
  · by_cases h2 : isValidEmail email
    · by_cases h3 : isValidPassword pw
      · rcases hfind : findUserByEmailSql users email with _ | w
        · simp only [register, if_neg h1, h2, not_true_eq_false, if_neg, h3, hfind,
            Prod.mk.injEq, RegisterOutcome.created.injEq] at h
          obtain ⟨⟨h4, -⟩, h5⟩ := h
          constructor
          · rfl
          · rfl
        · simp [register, if_neg h1, h2, h3, hfind] at h
      · simp [register, if_neg h1, h2, h3] at h
    · simp [register, if_neg h1, h2] at h

/-- C7.  Registering two requests whose emails agree up to letter case makes
the second fail with a conflict and leave the store unchanged (the second
request being otherwise well-formed), and user lookup by email gives the
same result for any two case-equal emails, in both the SQLite and the
in-memory variant of `findUserByEmail`. -/
theorem register_email_unique_ci (users : List User) (hash : String → String)
    (e1 p1 n1 id1 now1 e2 p2 n2 id2 now2 : String)
    (hlow : jsToLower e1 = jsToLower e2)
    (u1 : User) (cl1 : TokenClaims) (users1 : List User)
    (h1 : register users hash e1 p1 n1 id1 now1 = (.created u1 cl1, users1))
    (hv2 : isValidEmail e2 = true) (hp2 : isValidPassword p2 = true) :
    register users1 hash e2 p2 n2 id2 now2 = (.conflict, users1) ∧
    (∀ (us : List User) (f g : String), jsToLower f = jsToLower g →
      findUserByEmailSql us f = findUserByEmailSql us g ∧
      findUserByEmail us f = findUserByEmail us g) := by
  obtain ⟨hu1email, husers1⟩ :=
    register_created_shape users hash e1 p1 n1 id1 now1 u1 cl1 users1 h1
  constructor
  · have he2 : e2 ≠ "" := by
      intro hcon
      rw [hcon] at hv2
      exact absurd hv2 (by decide)
    have hp2ne : p2 ≠ "" := by
      intro hcon
      rw [hcon] at hp2
      exact absurd hp2 (by decide)
    have hdup : (findUserByEmailSql users1 e2).isSome := by
      rw [husers1]
      unfold findUserByEmailSql
      rw [List.find?_append]
      have hmatch : (jsToLower u1.email == jsToLower (jsToLower e2)) = true := by
        rw [hu1email, jsToLower_idem, jsToLower_idem, hlow]
        simp
      rcases hfirst : users.find? fun u => jsToLower u.email == jsToLower (jsToLower e2) with
        _ | w
      · simp [hfirst, hmatch]
      · simp [hfirst]
    rcases hfind : findUserByEmailSql users1 e2 with _ | w
    · rw [hfind] at hdup
      simp at hdup
    · simp [register, he2, hp2ne, hv2, hp2, hfind]
  · intro us f g hf
    constructor
    · unfold findUserByEmailSql
      rw [hf]
    · unfold findUserByEmail
      rw [hf]

/-- Witness for C7: registering `Admin@Test.com`, then `admin@test.COM`
with a fresh password, yields a conflict and leaves the single-user store
unchanged. -/
theorem register_email_unique_ci_witness :
    register
      [{ id := "id1", email := "admin@test.com", password := "XpassWord11",
         name := "A", role := "user", createdAt := "t1" }]
      (fun p => "X" ++ p) "admin@test.COM" "passWord22" "B" "id2" "t2" =
      (.conflict,
        [{ id := "id1", email := "admin@test.com", password := "XpassWord11",
           name := "A", role := "user", createdAt := "t1" }]) :=
  (register_email_unique_ci [] (fun p => "X" ++ p)
    "Admin@Test.com" "passWord11" "A" "id1" "t1"
    "admin@test.COM" "passWord22" "B" "id2" "t2"
    (by decide)
    { id := "id1", email := "admin@test.com", password := "XpassWord11",
      name := "A", role := "user", createdAt := "t1" }
    { userId := "id1", email := "admin@test.com", role := "user" }
    [{ id := "id1", email := "admin@test.com", password := "XpassWord11",
       name := "A", role := "user", createdAt := "t1" }]
    (by decide) (by decide) (by decide)).1

/-- Lowercase hex digit character, as `JSON.stringify` emits in `\u00XX`. -/
def hexDigit (n : Nat) : Char :=
  Char.ofNat (if n < 10 then 48 + n else 87 + n)

/-- JSON escape of one character, exactly as `JSON.stringify` escapes string
characters: quote and backslash get a backslash escape, the named control
escapes serve code points 8, 9, 10, 12, 13, any other control character
becomes `\u00XX`, and everything else is copied verbatim. -/
def escapeChar (c : Char) : List Char :=
  if c = '"' then ['\\', '"']
  else if c = '\\' then ['\\', '\\']
  else if c = '\x08' then ['\\', 'b']
  else if c = '\x09' then ['\\', 't']
  else if c = '\x0a' then ['\\', 'n']
  else if c = '\x0c' then ['\\', 'f']
  else if c = '\x0d' then ['\\', 'r']
  else if c.toNat < 32 then
    ['\\', 'u', '0', '0', hexDigit (c.toNat / 16), hexDigit (c.toNat % 16)]
  else [c]

/-- Escape every character of a string body. -/
def escapeChars (cs : List Char) : List Char := (cs.map escapeChar).flatten

/-- A JSON string literal: quote, escaped body, quote. -/
def encodeStringLit (s : String) : List Char := '"' :: (escapeChars s.data ++ ['"'])

/-- The comma-separated encoded elements of a JSON array of strings. -/
def encElems : List String → List Char
  | [] => []
  | [s] => encodeStringLit s
  | s :: rest => encodeStringLit s ++ ',' :: encElems rest

/-- `JSON.stringify` on an array of strings. -/
def jsonStringifyArr (l : List String) : String := ⟨'[' :: (encElems l ++ [']'])⟩

/-- Numeric value of a hex digit character. -/
def hexVal (c : Char) : Option Nat :=
  if 48 ≤ c.toNat ∧ c.toNat ≤ 57 then some (c.toNat - 48)
  else if 97 ≤ c.toNat ∧ c.toNat ≤ 102 then some (c.toNat - 87)
  else if 65 ≤ c.toNat ∧ c.toNat ≤ 70 then some (c.toNat - 55)
  else none

/-- Decode a JSON string body after the opening quote, returning the decoded
characters and the input remaining after the closing quote.  This models
`JSON.parse` on string literals: raw control characters are rejected, the
single-character escapes and `\uXXXX` are accepted (`\uXXXX` becomes the
code point directly; surrogate pairing never arises in the store's data). -/
def decodeStringLit : List Char → Option (List Char × List Char)
  | [] => none
  | c :: rest =>
      if c = '"' then some ([], rest)
      else if c = '\\' then
        match rest with
        | [] => none
        | e :: r =>
            if e = '"' then (decodeStringLit r).map fun p => ('"' :: p.1, p.2)
            else if e = '\\' then (decodeStringLit r).map fun p => ('\\' :: p.1, p.2)
            else if e = '/' then (decodeStringLit r).map fun p => ('/' :: p.1, p.2)
            else if e = 'b' then (decodeStringLit r).map fun p => ('\x08' :: p.1, p.2)
            else if e = 't' then (decodeStringLit r).map fun p => ('\x09' :: p.1, p.2)
            else if e = 'n' then (decodeStringLit r).map fun p => ('\x0a' :: p.1, p.2)
            else if e = 'f' then (decodeStringLit r).map fun p => ('\x0c' :: p.1, p.2)
            else if e = 'r' then (decodeStringLit r).map fun p => ('\x0d' :: p.1, p.2)
            else if e = 'u' then
              match r with
              | d1 :: d2 :: d3 :: d4 :: r' =>
                  match hexVal d1, hexVal d2, hexVal d3, hexVal d4 with
                  | some a, some b, some c3, some d =>
                      (decodeStringLit r').map fun p =>
                        (Char.ofNat (((a * 16 + b) * 16 + c3) * 16 + d) :: p.1, p.2)
                  | _, _, _, _ => none
              | _ => none
            else none
      else if c.toNat < 32 then none
      else (decodeStringLit rest).map fun p => (c :: p.1, p.2)

/-- Decode the comma-separated elements of a JSON string array up to and
including the closing bracket; the fuel argument bounds the number of
elements and is instantiated with the input length. -/
def decodeElems : Nat → List Char → Option (List String × List Char)
  | 0, _ => none
  | fuel + 1, input =>
      match input with
      | '"' :: r =>
          match decodeStringLit r with
          | none => none
          | some (s, r') =>
              match r' with
              | ',' :: r2 =>
                  match decodeElems fuel r2 with
                  | some (l, rr) => some (⟨s⟩ :: l, rr)
                  | none => none
              | ']' :: r2 => some ([⟨s⟩], r2)
              | _ => none
      | _ => none

/-- `JSON.parse` restricted to the grammar `JSON.stringify` emits for arrays
of strings (no surrounding whitespace, as the store writes it). -/
def jsonParseArr (s : String) : Option (List String) :=
  match s.data with
  | ['[', ']'] => some []
  | '[' :: r =>
      match decodeElems r.length r with
      | some (l, []) => some l
      | _ => none
  | _ => none

theorem hexVal_hexDigit (n : Nat) (h : n < 16) : hexVal (hexDigit n) = some n := by
  have hall : ∀ m : Fin 16, hexVal (hexDigit m.val) = some m.val := by decide
  exact hall ⟨n, h⟩

theorem decodeStringLit_unicode (c : Char) (tail : List Char) (h : c.toNat < 32) :
    decodeStringLit ('\\' :: 'u' :: '0' :: '0' ::
        hexDigit (c.toNat / 16) :: hexDigit (c.toNat % 16) :: tail) =
      (decodeStringLit tail).map fun p => (c :: p.1, p.2) := by
  have hd1 := hexVal_hexDigit (c.toNat / 16) (by omega)
  have hd2 := hexVal_hexDigit (c.toNat % 16) (Nat.mod_lt _ (by omega))
  have hz : hexVal '0' = some 0 := by decide
  rw [ decodeStringLit.eq_def]
  simp only [hz, hd1, hd2]
  norm_num
  rw [if_neg (by decide : ¬('\\' = '"')), if_neg (by decide : ¬('u' = '"')),
    if_neg (by decide : ¬('u' = '\\')), if_neg (by decide : ¬('u' = '/')),
    if_neg (by decide : ¬('u' = 'b')), if_neg (by decide : ¬('u' = 't')),
    if_neg (by decide : ¬('u' = 'n')), if_neg (by decide : ¬('u' = 'f')),
    if_neg (by decide : ¬('u' = 'r'))]
  have harith : c.toNat / 16 * 16 + c.toNat % 16 = c.toNat := by omega
  rw [harith, Char.ofNat_toNat]

theorem decodeStringLit_escape (s : List Char) (rest : List Char) :
    decodeStringLit (escapeChars s ++ '"' :: rest) = some (s, rest) := by
  induction s with
  | nil =>
      rw [ decodeStringLit.eq_def]
      simp [escapeChars]
  | cons c cs ih =>
      have hstep : escapeChars (c :: cs) = escapeChar c ++ escapeChars cs := by
        simp [escapeChars]
      rw [hstep, List.append_assoc]
      by_cases h1 : c = '"'
      · subst h1
        show decodeStringLit (escapeChar '"' ++ _) = _
        rw [show escapeChar '"' = ['\\', '"'] from by decide]
        rw [ decodeStringLit.eq_def]
        simp [ih]
      · by_cases h2 : c = '\\'
        · subst h2
          rw [show escapeChar '\\' = ['\\', '\\'] from by decide]
          rw [ decodeStringLit.eq_def]
          simp [ih]
        · by_cases h3 : c = '\x08'
          · subst h3
            rw [show escapeChar '\x08' = ['\\', 'b'] from by decide]
            rw [ decodeStringLit.eq_def]
            simp [ih]
          · by_cases h4 : c = '\x09'
            · subst h4
              rw [show escapeChar '\x09' = ['\\', 't'] from by decide]
              rw [ decodeStringLit.eq_def]
              simp [ih]
            · by_cases h5 : c = '\x0a'
              · subst h5
                rw [show escapeChar '\x0a' = ['\\', 'n'] from by decide]
                rw [ decodeStringLit.eq_def]
                simp [ih]
              · by_cases h6 : c = '\x0c'
                · subst h6
                  rw [show escapeChar '\x0c' = ['\\', 'f'] from by decide]
                  rw [ decodeStringLit.eq_def]
                  simp [ih]
                · by_cases h7 : c = '\x0d'
                  · subst h7
                    rw [show escapeChar '\x0d' = ['\\', 'r'] from by decide]
                    rw [ decodeStringLit.eq_def]
                    simp [ih]
                  · by_cases h8 : c.toNat < 32
                    · rw [show escapeChar c = '\\' :: 'u' :: '0' :: '0' ::
                          hexDigit (c.toNat / 16) :: hexDigit (c.toNat % 16) :: [] from by
                        simp [escapeChar, h1, h2, h3, h4, h5, h6, h7, h8]]
                      rw [List.cons_append, List.cons_append, List.cons_append,
                        List.cons_append, List.cons_append, List.cons_append,
                        List.nil_append]
                      rw [decodeStringLit_unicode c _ h8]
                      simp [ih]
                    · rw [show escapeChar c = [c] from by
                        simp [escapeChar, h1, h2, h3, h4, h5, h6, h7, h8]]
                      rw [ decodeStringLit.eq_def]
                      simp only [List.cons_append, List.nil_append]
                      have hq : (c = '"') = False := by simp [h1]
                      have hb : (c = '\\') = False := by simp [h2]
                      simp [hq, hb, h8, ih]

theorem string_mk_data (s : String) : String.mk s.data = s := rfl

theorem decodeElems_encElems (l : List String) (rest : List Char) :
    ∀ fuel : Nat, l ≠ [] → l.length ≤ fuel →
    decodeElems fuel (encElems l ++ ']' :: rest) = some (l, rest) := by
  induction l generalizing rest with
  | nil => intro fuel hl _; exact absurd rfl hl
  | cons s t ih =>
      intro fuel _ hf
      cases fuel with
      | zero => simp at hf
      | succ f =>
          cases t with
          | nil =>
              have hin : encElems [s] ++ ']' :: rest =
                  '"' :: (escapeChars s.data ++ '"' :: ']' :: rest) := by
                simp [encElems, encodeStringLit]
              rw [hin,  decodeElems.eq_def]
              simp [decodeStringLit_escape s.data (']' :: rest), string_mk_data]
          | cons s2 t2 =>
              have hin : encElems (s :: s2 :: t2) ++ ']' :: rest =
                  '"' :: (escapeChars s.data ++ '"' :: ',' ::
                    (encElems (s2 :: t2) ++ ']' :: rest)) := by
                simp [encElems, encodeStringLit]
              rw [hin,  decodeElems.eq_def]
              have hrec := ih rest f (by simp) (by simp at hf ⊢; omega)
              simp [decodeStringLit_escape s.data
                (',' :: (encElems (s2 :: t2) ++ ']' :: rest)), hrec, string_mk_data]

theorem encElems_length_ge (l : List String) : l.length ≤ (encElems l).length := by
  induction l with
  | nil => simp [encElems]
  | cons s t ih =>
      cases t with
      | nil => simp [encElems, encodeStringLit]
      | cons s2 t2 =>
          simp only [encElems, List.length_append, List.length_cons] at ih ⊢
          omega

/-- The store's serialize-on-insert and parse-on-read of the images field
form a round-trip identity on every list of image filenames. -/
theorem jsonParseArr_stringify (l : List String) :
    jsonParseArr (jsonStringifyArr l) = some l := by
  cases l with
  | nil => rfl
  | cons s t =>
      obtain ⟨tl, htl⟩ : ∃ tl, encElems (s :: t) = '"' :: tl := by
        cases t <;> exact ⟨_, rfl⟩
      have hfuel : (s :: t).length ≤ ('"' :: (tl ++ [']'])).length := by
        have h1 := encElems_length_ge (s :: t)
        rw [htl] at h1
        simp only [List.length_append, List.length_cons, List.length_nil] at h1 ⊢
        omega
      have hdec := decodeElems_encElems (s :: t) []
        (('"' :: (tl ++ [']'])).length) (by simp) hfuel
      rw [htl] at hdec
      have hlist : ('"' :: tl) ++ ']' :: ([] : List Char) = '"' :: (tl ++ [']']) := by simp
      rw [hlist] at hdec
      unfold jsonParseArr jsonStringifyArr
      rw [htl]
      have hlist2 : ('"' :: tl) ++ [']'] = '"' :: (tl ++ [']']) := by simp
      rw [hlist2]
      show (match decodeElems (('"' :: (tl ++ [']'])).length) ('"' :: (tl ++ [']'])) with
        | some (l, []) => some l
        | _ => none) = some (s :: t)
      rw [hdec]

/-- Row of the SQLite `vehicles` table (`db/database.js` schema; nullable
columns are `Option`, `images` holds the serialized JSON text; the numeric
columns hold the repository's integer-valued numbers). -/
structure VehicleRow where
  id : String
  brand : String
  model : String
  year : Option Int
  price : Option Int
  mileage : Option Int
  description : Option String
  images : Option String
  createdAt : String
  updatedAt : Option String
deriving DecidableEq

/-- Vehicle as returned to callers of the data layer: the `images` text
parsed back to a list.  `images = none` models a `JSON.parse` exception on
text that is not a well-formed string array. -/
structure VehicleOut where
  id : String
  brand : String
  model : String
  year : Option Int
  price : Option Int
  mileage : Option Int
  description : Option String
  images : Option (List String)
  createdAt : String
  updatedAt : Option String
deriving DecidableEq

/-- `images: v.images ? JSON.parse(v.images) : []` applied to one row. -/
def rowToVehicle (r : VehicleRow) : VehicleOut :=
  { id := r.id, brand := r.brand, model := r.model, year := r.year,
    price := r.price, mileage := r.mileage, description := r.description,
    images :=
      match r.images with
      | none => some []
      | some s => if s = "" then some [] else jsonParseArr s,
    createdAt := r.createdAt, updatedAt := r.updatedAt }

/-- `getVehicleById` of `data/vehicles.js`: `SELECT * FROM vehicles WHERE
id = ?` and parse the images column. -/
def getVehicleById (store : List VehicleRow) (id : String) : Option VehicleOut :=
  (store.find? fun r => r.id == id).map rowToVehicle

/-- `addVehicle` of `data/vehicles.js`: serialize the images list with
`JSON.stringify(vehicle.images || [])`, stamp `createdAt`, insert the row. -/
def addVehicle (store : List VehicleRow) (id brand model : String)
    (year price mileage : Option Int) (description : Option String)
    (images : List String) (now : String) : List VehicleRow :=
  store ++
    [{ id := id, brand := brand, model := model, year := year,
       price := price, mileage := mileage, description := description,
       images := some (jsonStringifyArr images), createdAt := now,
       updatedAt := none }]

theorem jsonStringifyArr_ne_empty (l : List String) : jsonStringifyArr l ≠ "" := by
  intro h
  have : ('[' :: (encElems l ++ [']'])) = ([] : List Char) :=
    congrArg String.data h
  simp at this

/-- C9.  A vehicle created with an ordered list of image filenames and then
fetched by its id comes back with exactly the same image list in the same
order: serialize-on-insert composed with parse-on-read is the identity. -/
theorem vehicle_images_roundtrip (store : List VehicleRow)
    (id brand model : String) (year price mileage : Option Int)
    (description : Option String) (images : List String) (now : String)
    (hid : ∀ r ∈ store, r.id ≠ id) :
    getVehicleById (addVehicle store id brand model year price mileage
        description images now) id =
      some { id := id, brand := brand, model := model, year := year,
             price := price, mileage := mileage, description := description,
             images := some images, createdAt := now, updatedAt := none } := by
  unfold getVehicleById addVehicle
  rw [List.find?_append]
  have hnone : (store.find? fun r => r.id == id) = none := by
    rw [List.find?_eq_none]
    intro r hr
    simpa using hid r hr
  rw [hnone]
  simp only [Option.none_or]
  have hfind : (([{ id := id, brand := brand, model := model, year := year,
                    price := price, mileage := mileage,
                    description := description,
                    images := some (jsonStringifyArr images), createdAt := now,
                    updatedAt := none }] : List VehicleRow).find?
        fun r => r.id == id) =
      some { id := id, brand := brand, model := model, year := year,
             price := price, mileage := mileage, description := description,
             images := some (jsonStringifyArr images), createdAt := now,
             updatedAt := none } := by
    simp [List.find?]
  rw [hfind]
  simp only [Option.map_some', rowToVehicle]
  rw [if_neg (jsonStringifyArr_ne_empty images), jsonParseArr_stringify]

/-- Witness for C9: `["a.jpg", "b.jpg"]` round-trips through an empty store. -/
theorem vehicle_images_roundtrip_witness :
    getVehicleById (addVehicle [] "v1" "BMW" "320i" (some 2020) (some 25000)
        (some 50000) none ["a.jpg", "b.jpg"] "t0") "v1" =
      some { id := "v1", brand := "BMW", model := "320i", year := some 2020,
             price := some 25000, mileage := some 50000, description := none,
             images := some ["a.jpg", "b.jpg"], createdAt := "t0",
             updatedAt := none } :=
  vehicle_images_roundtrip [] "v1" "BMW" "320i" (some 2020) (some 25000)
    (some 50000) none ["a.jpg", "b.jpg"] "t0" (by simp)

/-- JavaScript `String.prototype.trim` (strips whitespace at both ends). -/
def jsTrim (s : String) : String :=
  ⟨((s.data.dropWhile Char.isWhitespace).reverse.dropWhile Char.isWhitespace).reverse⟩

/-- Inquiry record as stored by the Inquiry Store. -/
structure Inquiry where
  id : String
  vehicleId : String
  name : String
  email : String
  phone : Option String
  message : String
  status : String
  createdAt : String
deriving DecidableEq

/-- `addInquiry` of `data/inquiries.js`: inserts with status `new` and a
`createdAt` stamp, and returns the created record. -/
def addInquiry (store : List Inquiry) (id vehicleId nm email : String)
    (phone : Option String) (message : String) (now : String) :
    Inquiry × List Inquiry :=
  let inq : Inquiry :=
    { id := id, vehicleId := vehicleId, name := nm, email := email,
      phone := phone, message := message, status := "new", createdAt := now }
  (inq, store ++ [inq])

/-- Outcome of the `POST /api/inquiries` handler. -/
inductive InquiryOutcome where
  | badRequest (errors : List String)
  | created (inq : Inquiry)
deriving DecidableEq

/-- The `POST /api/inquiries` handler of `routes/inquiries.js`: collects
validation errors (required `vehicleId` that must exist in the Listing
Store, required non-blank `name`, required well-formed `email`, required
`message` of at least 10 characters after trimming); on any error it
answers 400 without touching the store, otherwise it inserts via
`addInquiry` with trimmed fields, the email lowercased, and `phone` dropped
to `null` when falsy. -/
def createInquiry (vehicles : List VehicleRow) (store : List Inquiry)
    (vehicleId nm email phone message : Option String) (id now : String) :
    InquiryOutcome × List Inquiry :=
  let e1 : List String :=
    match vehicleId with
    | none => ["vehicleId ist erforderlich"]
    | some vid =>
        if vid = "" then ["vehicleId ist erforderlich"]
        else if (getVehicleById vehicles vid).isSome then []
        else ["Fahrzeug nicht gefunden"]
  let e2 : List String :=
    match nm with
    | none => ["Name ist erforderlich"]
    | some s => if s = "" ∨ jsTrim s = "" then ["Name ist erforderlich"] else []
  let e3 : List String :=
    match email with
    | none => ["Email ist erforderlich"]
    | some s =>
        if s = "" ∨ jsTrim s = "" then ["Email ist erforderlich"]
        else if ¬ isValidEmail s then ["Ungueltige Email-Adresse"] else []
  let e4 : List String :=
    match message with
    | none => ["Nachricht ist erforderlich"]
    | some s =>
        if s = "" ∨ jsTrim s = "" then ["Nachricht ist erforderlich"]
        else if (jsTrim s).length < 10 then
          ["Nachricht muss mindestens 10 Zeichen lang sein"]
        else []
  let errors := e1 ++ e2 ++ e3 ++ e4
  if errors ≠ [] then (.badRequest errors, store)
  else
    let phoneVal : Option String :=
      match phone with
      | none => none
      | some p => if p = "" then none else some (jsTrim p)
    let r := addInquiry store id (vehicleId.getD "") (jsTrim (nm.getD ""))
      (jsToLower (jsTrim (email.getD ""))) phoneVal (jsTrim (message.getD "")) now
    (.created r.1, r.2)

/-- Is the outcome a 400 validation failure? -/
def isBadRequest : InquiryOutcome → Bool
  | .badRequest _ => true
  | .created _ => false

/-- C8.  An inquiry whose `vehicleId` does not identify an existing vehicle
is rejected with a validation error and nothing is inserted; when the
vehicle exists and the remaining fields are valid, the inquiry is created
with status `new` and appended to the store. -/
theorem createInquiry_vehicle_check (vehicles : List VehicleRow)
    (store : List Inquiry) (vid nmS emailS msgS : String)
    (phone : Option String) (id now : String) :
    (vid ≠ "" → getVehicleById vehicles vid = none →
      isBadRequest (createInquiry vehicles store (some vid) (some nmS)
          (some emailS) phone (some msgS) id now).1 = true ∧
        (createInquiry vehicles store (some vid) (some nmS) (some emailS)
          phone (some msgS) id now).2 = store) ∧
    (vid ≠ "" → (getVehicleById vehicles vid).isSome → jsTrim nmS ≠ "" →
      jsTrim emailS ≠ "" → isValidEmail emailS = true →
      10 ≤ (jsTrim msgS).length →
      ∃ inq, inq.status = "new" ∧
        createInquiry vehicles store (some vid) (some nmS) (some emailS)
          phone (some msgS) id now = (.created inq, store ++ [inq])) := by
  constructor
  · intro hvid hmiss
    unfold createInquiry
    simp [hvid, hmiss, isBadRequest]
  · intro hvidne hfound hnm hemail hvalid hmsg
    have hnmne : nmS ≠ "" := by
      intro hcon; rw [hcon] at hnm; exact hnm rfl
    have hemailne : emailS ≠ "" := by
      intro hcon; rw [hcon] at hemail; exact hemail rfl
    have hmsgtr : jsTrim msgS ≠ "" := by
      intro hcon
      rw [hcon] at hmsg
      simp at hmsg
    have hmsgne : msgS ≠ "" := by
      intro hcon; rw [hcon] at hmsgtr; exact hmsgtr rfl
    have hlen : ¬ (jsTrim msgS).length < 10 := by omega
    refine ⟨{ id := id, vehicleId := vid, name := jsTrim nmS,
              email := jsToLower (jsTrim emailS),
              phone := match phone with
                       | none => none
                       | some p => if p = "" then none else some (jsTrim p),
              message := jsTrim msgS, status := "new", createdAt := now },
      rfl, ?_⟩
    unfold createInquiry
    simp [hvidne, hfound, hnm, hnmne, hemail, hemailne, hvalid, hmsgtr, hmsgne,
      hlen, addInquiry]

/-- Sample row of the SQLite vehicles table. -/
def sampleRow : VehicleRow :=
  { id := "v1", brand := "BMW", model := "320i", year := some 2020,
    price := some 25000, mileage := some 50000, description := none,
    images := some "[]", createdAt := "t0", updatedAt := none }

/-- Witness for C8: an unknown `vehicleId` is rejected with an untouched
store, and a valid inquiry for the existing vehicle is created with status
`new`. -/
theorem createInquiry_vehicle_check_witness :
    (isBadRequest (createInquiry [sampleRow] [] (some "nope") (some "Max")
        (some "max@example.com") none (some "Ich interessiere mich dafuer")
        "i1" "t1").1 = true ∧
      (createInquiry [sampleRow] [] (some "nope") (some "Max")
        (some "max@example.com") none (some "Ich interessiere mich dafuer")
        "i1" "t1").2 = []) ∧
    (∃ inq, inq.status = "new" ∧
      createInquiry [sampleRow] [] (some "v1") (some "Max")
        (some "max@example.com") none (some "Ich interessiere mich dafuer")
        "i1" "t1" = (.created inq, [] ++ [inq])) :=
  ⟨(createInquiry_vehicle_check [sampleRow] [] "nope" "Max" "max@example.com"
      "Ich interessiere mich dafuer" none "i1" "t1").1 (by decide) (by decide),
   (createInquiry_vehicle_check [sampleRow] [] "v1" "Max" "max@example.com"
      "Ich interessiere mich dafuer" none "i1" "t1").2 (by decide) (by decide)
      (by decide) (by decide) (by decide) (by decide)⟩

/-- Vehicle record of the legacy in-memory listing in `server.js` (KFZ-29
variant); `titel`/`beschreibung` may be absent on records posted without
them. -/
structure SVehicle where
  id : String
  marke : String
  titel : Option String
  beschreibung : Option String
  preis : Int
  baujahr : Int
  kilometerstand : Int
  kraftstoff : String
deriving DecidableEq

/-- Query parameters of the legacy `GET /api/vehicles` in `server.js`. -/
structure SQuery where
  marke : Option String := none
  preis_min : NumParam := .absent
  preis_max : NumParam := .absent
  baujahr_min : NumParam := .absent
  baujahr_max : NumParam := .absent
  km_min : NumParam := .absent
  km_max : NumParam := .absent
  kraftstoff : Option String := none
  q : Option String := none
  sort : Option String := none
  order : Option String := none
deriving DecidableEq

/-- The comparator of the legacy handler: numeric differences for `preis`,
`baujahr` (with the inverted sign the source marks as BUG 5) and `km`,
`0` for any other field. -/
def serverCompare (f : String) (ord : Int) (a b : SVehicle) : Int :=
  if f = "preis" then (a.preis - b.preis) * ord
  else if f = "baujahr" then (a.baujahr - b.baujahr) * (-ord)
  else if f = "km" then (a.kilometerstand - b.kilometerstand) * ord
  else 0

/-- The legacy `GET /api/vehicles` handler of `server.js` (KFZ-29): exact
brand and fuel match, the range filters as written in the source — `preis`
lower bound strict (BUG 1), `km_min`/`km_max` comparisons swapped (BUG 2) —
case-sensitive text search (BUG 3), and sorting only when `sort` is
present.  It returns the plain filtered array, unpaginated. -/
def serverListVehicles (vehicles : List SVehicle) (qy : SQuery) : List SVehicle :=
  let r1 := match qy.marke with
    | none => vehicles
    | some m => vehicles.filter fun v => v.marke == m
  let r2 := match qy.preis_min with
    | .absent => r1
    | .num n => r1.filter fun v => decide (n < v.preis)
    | .malformed => r1.filter fun _ => false
  let r3 := match qy.preis_max with
    | .absent => r2
    | .num n => r2.filter fun v => decide (v.preis ≤ n)
    | .malformed => r2.filter fun _ => false
  let r4 := match qy.baujahr_min with
    | .absent => r3
    | .num n => r3.filter fun v => decide (n ≤ v.baujahr)
    | .malformed => r3.filter fun _ => false
  let r5 := match qy.baujahr_max with
    | .absent => r4
    | .num n => r4.filter fun v => decide (v.baujahr ≤ n)
    | .malformed => r4.filter fun _ => false
  let r6 := match qy.km_min with
    | .absent => r5
    | .num n => r5.filter fun v => decide (v.kilometerstand ≤ n)
    | .malformed => r5.filter fun _ => false
  let r7 := match qy.km_max with
    | .absent => r6
    | .num n => r6.filter fun v => decide (n ≤ v.kilometerstand)
    | .malformed => r6.filter fun _ => false
  let r8 := match qy.kraftstoff with
    | none => r7
    | some k => r7.filter fun v => v.kraftstoff == k
  let r9 := match qy.q with
    | none => r8
    | some qs =>
        r8.filter fun v =>
          (match v.titel with
           | some t => jsIncludes t qs
           | none => false) ||
          (match v.beschreibung with
           | some b => jsIncludes b qs
           | none => false)
  match qy.sort with
  | none => r9
  | some f =>
      let ord : Int := if qy.order = some "desc" then -1 else 1
      r9.insertionSort fun a b => serverCompare f ord a b ≤ 0

/-- Sample record for the legacy listing. -/
def sampleSV : SVehicle :=
  { id := "1", marke := "BMW", titel := some "BMW 320i", beschreibung := none,
    preis := 25000, baujahr := 2020, kilometerstand := 60000,
    kraftstoff := "benzin" }

/-- C2 (code bug, documented as BUG 1 and BUG 2 in the source comments).
The legacy `server.js` range filters are not inclusive: a vehicle whose
price equals `preis_min` is excluded (the code uses strict `>` where its
own comment says `>=`), and `km_min`/`km_max` act as an upper/lower bound
respectively, so a mileage above `km_min` is excluded. -/
theorem server_range_filter_bug :
    serverListVehicles [sampleSV] { preis_min := .num 25000 } = [] ∧
    sampleSV.preis = 25000 ∧
    serverListVehicles [sampleSV] { km_min := .num 50000 } = [] ∧
    50000 ≤ sampleSV.kilometerstand := by
  refine ⟨by decide, by decide, by decide, by decide⟩

/-- A numeric SQL parameter after `parseFloat`/`parseInt`: a number, or
`NaN`, which better-sqlite3 binds as SQL `NULL` so that the comparison
matches no row. -/
inductive SqlNum where
  | num (n : Int)
  | nan
deriving DecidableEq

/-- Options of `getVehiclesPaginated` (KFZ-13, `src/unnamed/part_002`).
The numeric bounds are applied whenever the option is present (`!==
undefined` in the source), even when their parse is `NaN`. -/
structure PagOptions where
  page : NumParam := .absent
  limit : NumParam := .absent
  brand : Option String := none
  minPrice : Option SqlNum := none
  maxPrice : Option SqlNum := none
  minYear : Option SqlNum := none
  maxYear : Option SqlNum := none
  sortBy : Option String := none
  order : Option String := none
deriving DecidableEq

/-- The WHERE clause of `getVehiclesPaginated` as a row predicate: brand is
a case-insensitive substring (`LIKE '%…%'` without metacharacters), the
bounds compare the nullable column (`NULL` never satisfies a comparison,
and a `NaN` parameter is bound as `NULL`, matching nothing). -/
def rowMatches (opts : PagOptions) (r : VehicleRow) : Bool :=
  (match opts.brand with
   | none => true
   | some b => jsIncludes (jsToLower r.brand) (jsToLower b)) &&
  (match opts.minPrice with
   | none => true
   | some (.num n) => match r.price with
     | some p => decide (n ≤ p)
     | none => false
   | some .nan => false) &&
  (match opts.maxPrice with
   | none => true
   | some (.num n) => match r.price with
     | some p => decide (p ≤ n)
     | none => false
   | some .nan => false) &&
  (match opts.minYear with
   | none => true
   | some (.num n) => match r.year with
     | some y => decide (n ≤ y)
     | none => false
   | some .nan => false) &&
  (match opts.maxYear with
   | none => true
   | some (.num n) => match r.year with
     | some y => decide (y ≤ n)
     | none => false
   | some .nan => false)

/-- The sort-column allow-list of `getVehiclesPaginated`. -/
def validSortColumns : List String :=
  ["createdAt", "price", "year", "mileage", "brand", "model"]

/-- `validSortColumns.includes(sortBy) ? sortBy : 'createdAt'` (with the
destructuring default `'createdAt'` for an absent option). -/
def resolveSortBy (s : Option String) : String :=
  let sb := s.getD "createdAt"
  if validSortColumns.contains sb then sb else "createdAt"

/-- `order.toLowerCase() === 'asc' ? 'ASC' : 'DESC'` (destructuring default
`'desc'`); `true` means ascending. -/
def resolveOrderAsc (o : Option String) : Bool :=
  jsToLower (o.getD "desc") == "asc"

/-- A sort key of the SQL ORDER BY: a nullable numeric column or a text
column. -/
inductive SqlKey where
  | n (v : Option Int)
  | s (v : String)
deriving DecidableEq

/-- The column value used for ordering. -/
def rowKey (col : String) (r : VehicleRow) : SqlKey :=
  match col with
  | "price" => .n r.price
  | "year" => .n r.year
  | "mileage" => .n r.mileage
  | "brand" => .s r.brand
  | "model" => .s r.model
  | _ => .s r.createdAt

/-- SQLite ordering on keys: `NULL` sorts before every number, numbers are
numeric, text is byte-wise (equal to code-point order on UTF-8). -/
def sqlKeyLe (a b : SqlKey) : Bool :=
  match a, b with
  | .n none, .n _ => true
  | .n (some _), .n none => false
  | .n (some x), .n (some y) => decide (x ≤ y)
  | .s x, .s y => !decide (y.data < x.data)
  | .n _, .s _ => true
  | .s _, .n _ => false

/-- `ORDER BY col ASC|DESC` (a stable model of SQLite's otherwise
unspecified tie order). -/
def sqlOrderBy (col : String) (asc : Bool) (rows : List VehicleRow) :
    List VehicleRow :=
  rows.insertionSort fun a b =>
    (if asc then sqlKeyLe (rowKey col a) (rowKey col b)
     else sqlKeyLe (rowKey col b) (rowKey col a)) = true

/-- `Math.min(Math.max(1, parseInt(limit) || 10), 100)`. -/
def safeLimitSql : NumParam → Nat
  | .num n => (min 100 (max 1 (if n = 0 then 10 else n))).toNat
  | _ => 10

/-- Response envelope of `getVehiclesPaginated`. -/
structure PaginatedRows where
  total : Nat
  page : Nat
  limit : Nat
  totalPages : Nat
  vehicles : List VehicleOut
deriving DecidableEq

/-- `getVehiclesPaginated` of the KFZ-13 data layer: count the filtered
rows, sort by the resolved column and direction, apply LIMIT/OFFSET, parse
the images of the returned page. -/
def getVehiclesPaginated (rows : List VehicleRow) (opts : PagOptions) :
    PaginatedRows :=
  let lim := safeLimitSql opts.limit
  let pg := safePage opts.page
  let offset := (pg - 1) * lim
  let filtered := rows.filter (rowMatches opts)
  let sorted := sqlOrderBy (resolveSortBy opts.sortBy) (resolveOrderAsc opts.order) filtered
  { total := filtered.length
    page := pg
    limit := lim
    totalPages := ceilDiv filtered.length lim
    vehicles := ((sorted.drop offset).take lim).map rowToVehicle }

/-- C5 amended.  In `getVehiclesPaginated`, a `sortBy` outside the
allow-list `{createdAt, price, year, mileage, brand, model}` yields the same
result as `sortBy = createdAt`, and an `order` that does not lowercase to
`asc` yields the same result as `order = desc` (descending); the legacy
`routes/vehicles.js` handler instead sorts ascending for every `order`
value other than the exact string `desc` and does not validate the sort
field. -/
theorem sort_resolution_amended (rows : List VehicleRow) (opts : PagOptions) :
    (validSortColumns.contains (opts.sortBy.getD "createdAt") = false →
      getVehiclesPaginated rows opts =
        getVehiclesPaginated rows { opts with sortBy := some "createdAt" }) ∧
    (jsToLower (opts.order.getD "desc") ≠ "asc" →
      getVehiclesPaginated rows opts =
        getVehiclesPaginated rows { opts with order := some "desc" }) ∧
    (∀ (vehicles : List Vehicle) (q : VehicleQuery), q.order ≠ some "desc" →
      getVehicles vehicles q = getVehicles vehicles { q with order := some "asc" }) := by
  refine ⟨?_, ?_, ?_⟩
  · intro hcol
    have h1 : resolveSortBy opts.sortBy = "createdAt" := by
      unfold resolveSortBy
      rw [if_neg]
      intro hmem
      rw [hcol] at hmem
      exact absurd hmem (by simp)
    have h2 : resolveSortBy (some "createdAt") = "createdAt" := by decide
    unfold getVehiclesPaginated
    simp only [h1, h2]
    rfl
  · intro hord
    have h1 : resolveOrderAsc opts.order = false := by
      unfold resolveOrderAsc
      simpa using hord
    have h2 : resolveOrderAsc (some "desc") = false := by decide
    unfold getVehiclesPaginated
    simp only [h1, h2]
    rfl
  · intro vehicles q hq
    unfold getVehicles
    rw [if_neg hq, if_neg (by simp : ¬ (some "asc" : Option String) = some "desc")]

/-- Witness for the amended C5 at concrete inputs. -/
theorem sort_resolution_amended_witness :
    getVehiclesPaginated [sampleRow] { sortBy := some "bogus" } =
      getVehiclesPaginated [sampleRow]
        { ({ sortBy := some "bogus" } : PagOptions) with sortBy := some "createdAt" } ∧
    getVehiclesPaginated [sampleRow] { order := some "DOWN" } =
      getVehiclesPaginated [sampleRow]
        { ({ order := some "DOWN" } : PagOptions) with order := some "desc" } ∧
    getVehicles [sampleV1] { order := some "up" } =
      getVehicles [sampleV1]
        { ({ order := some "up" } : VehicleQuery) with order := some "asc" } :=
  ⟨(sort_resolution_amended [sampleRow] { sortBy := some "bogus" }).1 (by decide),
   (sort_resolution_amended [sampleRow] { order := some "DOWN" }).2.1 (by decide),
   (sort_resolution_amended [sampleRow] { order := some "DOWN" }).2.2
     [sampleV1] { order := some "up" } (by decide)⟩

end Kfz
